import Mathlib

/-!
Verification of the ETL pipeline in `dags/etl.py`: the description cleaner
`clean_description`, the normalizer `transform`, and the loader `load`.
Each Python function is shallowly embedded as an executable Lean function;
the theorems at the end of the file settle the specified properties.
-/

set_option maxHeartbeats 1000000

/-- JSON values, as produced by the external JSON parser (`json.loads`).
An object's field list carries the dictionary entries; keys are unique
because the parser deduplicates them. -/
inductive Json where
  | null : Json
  | bool (b : Bool) : Json
  | num (q : Int) : Json
  | str (s : String) : Json
  | arr (elems : List Json) : Json
  | obj (fields : List (String × Json)) : Json

/-! ## The description cleaner

`clean_description` in `etl.py` is `re.sub(r'<.*?>', '', description)`.
Operationally: the regex engine scans left to right; at a `<` the
non-greedy `.*?` extends to the nearest following `>`, where `.` matches
any character except a newline.  So a match starting at a `<` runs to the
first `>` after it provided no newline intervenes; the matched span is
deleted and scanning resumes after it.  A `<` with no such `>` is kept and
scanning resumes at the next character (no later match can start strictly
between that `<` and the blocking newline, because that region contains
no `>` at all). -/

/-- Scan for the first `>` in the list, returning the characters after it;
return `none` if a newline or the end of the input comes first (then the
pattern `<.*?>` has no match starting at a `<` placed just before this
list). -/
def splitAtGt : List Char → Option (List Char)
  | [] => none
  | c :: rest => if c = '>' then some rest else if c = '\n' then none else splitAtGt rest

/-- Fuel-indexed single pass of the tag remover; the fuel only serves to
make the recursion structural, `stripGo_congr` shows any sufficient fuel
gives the same result. -/
def stripGo : Nat → List Char → List Char
  | 0, l => l
  | _ + 1, [] => []
  | fuel + 1, c :: rest =>
    if c = '<' then
      match splitAtGt rest with
      | some rest2 => stripGo fuel rest2
      | none => c :: stripGo fuel rest
    else c :: stripGo fuel rest

/-- The tag remover: one left-to-right pass deleting every `<`…`>` span
that contains no newline, as `re.sub` with the pattern `<.*?>` does. -/
def stripTags (l : List Char) : List Char := stripGo l.length l

/-- Embedding of `clean_description` from `etl.py`. -/
def clean_description (s : String) : String := ⟨stripTags s.data⟩

/-- No `>` occurs before the first newline (so a `<` placed just before
this list starts no match of `<.*?>`). -/
def noGtBeforeNl : List Char → Bool
  | [] => true
  | c :: rest => if c = '>' then false else if c = '\n' then true else noGtBeforeNl rest

/-- Tag detector for single-line tags: is there a `<` later followed by a
`>` with no newline in between (i.e. a substring the pattern `<.*?>`
matches)?  The boolean argument records whether such a `<` is pending. -/
def hasTagAux : List Char → Bool → Bool
  | [], _ => false
  | c :: rest, opn =>
    if c = '>' then (if opn then true else hasTagAux rest false)
    else if c = '\n' then hasTagAux rest false
    else if c = '<' then hasTagAux rest true
    else hasTagAux rest opn

/-- Tag detector in the loose sense of the claim: a `<` later followed by
a `>`, with arbitrary characters (newlines included) in between. -/
def hasAnyTagAux : List Char → Bool → Bool
  | [], _ => false
  | c :: rest, opn => if c = '>' && opn then true else hasAnyTagAux rest (opn || c = '<')

/-! ## The normalizer

The body of `transform` in `etl.py` parses each payload with `json.loads`
and reads fields with chained `dict.get` calls: a missing key yields the
default (`{}` for an intermediate object, `""` for a leaf), while calling
`.get` on a value that is not a dictionary raises `AttributeError`. -/

/-- Embedding of Python's `value.get(key, default)`: total on objects,
failing (`none`, modelling `AttributeError`) on anything else. -/
def pyGet : Json → String → Json → Option Json
  | .obj fs, k, d => some ((List.lookup k fs).getD d)
  | _, _, _ => none

/-- A top-level leaf access `job_data.get(k, "")`. -/
def get1 (v : Json) (k : String) : Option Json := pyGet v k (.str "")

/-- A depth-two access `job_data.get(k1, {}).get(k2, "")`. -/
def get2 (v : Json) (k1 k2 : String) : Option Json :=
  (pyGet v k1 (.obj [])).bind fun w => pyGet w k2 (.str "")

/-- A depth-three access `job_data.get(k1, {}).get(k2, {}).get(k3, "")`. -/
def get3 (v : Json) (k1 k2 k3 : String) : Option Json :=
  (pyGet v k1 (.obj [])).bind fun w =>
    (pyGet w k2 (.obj [])).bind fun u => pyGet u k3 (.str "")

/-- Applying `clean_description` to a JSON value: `re.sub` demands a
string argument and raises `TypeError` otherwise, so the cleaner fails on
every non-string value. -/
def cleanJson : Json → Option Json
  | .str s => some (.str (clean_description s))
  | _ => none

structure JobRec where
  title : Json
  industry : Json
  description : Json
  employment_type : Json
  date_posted : Json

structure CompanyRec where
  name : Json
  link : Json

structure EducationRec where
  required_credential : Json

structure ExperienceRec where
  months_of_experience : Json
  seniority_level : Json

structure SalaryRec where
  currency : Json
  min_value : Json
  max_value : Json
  unit : Json

structure LocationRec where
  country : Json
  locality : Json
  region : Json
  postal_code : Json
  street_address : Json
  latitude : Json
  longitude : Json

/-- The six-part normalized record (`transformed_item` in `etl.py`). -/
structure TransformedItem where
  job : JobRec
  company : CompanyRec
  education : EducationRec
  experience : ExperienceRec
  salary : SalaryRec
  location : LocationRec

/-- The `"job"` sub-dictionary of `transformed_item`, fields in source
order; the description is cleaned. -/
def extractJob (v : Json) : Option JobRec :=
  (get1 v "title").bind fun title =>
  (get1 v "industry").bind fun industry =>
  (get1 v "description").bind fun descriptionRaw =>
  (cleanJson descriptionRaw).bind fun description =>
  (get1 v "employmentType").bind fun employment_type =>
  (get1 v "datePosted").bind fun date_posted =>
  some ⟨title, industry, description, employment_type, date_posted⟩

/-- The `"company"` sub-dictionary of `transformed_item`. -/
def extractCompany (v : Json) : Option CompanyRec :=
  (get2 v "hiringOrganization" "name").bind fun name =>
  (get2 v "hiringOrganization" "sameAs").bind fun link =>
  some ⟨name, link⟩

/-- The `"education"` sub-dictionary of `transformed_item`. -/
def extractEducation (v : Json) : Option EducationRec :=
  (get2 v "educationRequirements" "credentialCategory").bind fun rc =>
  some ⟨rc⟩

/-- The `"experience"` sub-dictionary of `transformed_item`. -/
def extractExperience (v : Json) : Option ExperienceRec :=
  (get2 v "experienceRequirements" "monthsOfExperience").bind fun months =>
  (get2 v "experienceRequirements" "seniority_level").bind fun seniority =>
  some ⟨months, seniority⟩

/-- The `"salary"` sub-dictionary of `transformed_item`. -/
def extractSalary (v : Json) : Option SalaryRec :=
  (get2 v "salary" "currency").bind fun currency =>
  (get2 v "salary" "min_value").bind fun minv =>
  (get2 v "salary" "max_value").bind fun maxv =>
  (get2 v "salary" "unit").bind fun unit =>
  some ⟨currency, minv, maxv, unit⟩

/-- The `"location"` sub-dictionary of `transformed_item`. -/
def extractLocation (v : Json) : Option LocationRec :=
  (get3 v "jobLocation" "address" "addressCountry").bind fun country =>
  (get3 v "jobLocation" "address" "addressLocality").bind fun locality =>
  (get3 v "jobLocation" "address" "addressRegion").bind fun region =>
  (get3 v "jobLocation" "address" "postalCode").bind fun postal =>
  (get3 v "jobLocation" "address" "streetAddress").bind fun street =>
  (get2 v "jobLocation" "latitude").bind fun lat =>
  (get2 v "jobLocation" "longitude").bind fun lon =>
  some ⟨country, locality, region, postal, street, lat, lon⟩

/-- Embedding of the per-payload body of `transform` in `etl.py`: the
six sub-records built in source order on the parsed payload; `none`
models an exception escaping the dictionary construction. -/
def transform1 (v : Json) : Option TransformedItem :=
  (extractJob v).bind fun job =>
  (extractCompany v).bind fun company =>
  (extractEducation v).bind fun education =>
  (extractExperience v).bind fun experience =>
  (extractSalary v).bind fun salary =>
  (extractLocation v).bind fun location =>
  some ⟨job, company, education, experience, salary, location⟩

/-- The sub-dictionary stored under `k`, or the empty dictionary when the
key is absent or its value is not an object (the latter case is the one
in which the Python chain would instead raise). -/
def subFields (fs : List (String × Json)) (k : String) : List (String × Json) :=
  match List.lookup k fs with
  | some (.obj gs) => gs
  | _ => []

/-- Leaf access with the empty-string default. -/
def leafD (fs : List (String × Json)) (k : String) : Json :=
  (List.lookup k fs).getD (.str "")

def strOf : Json → String
  | .str s => s
  | _ => ""

/-- The key is absent, or its value is an object. -/
def objOrAbsent (fs : List (String × Json)) (k : String) : Bool :=
  match List.lookup k fs with
  | none => true
  | some (.obj _) => true
  | some _ => false

/-- Every intermediate key used by `transform` is, when present, bound to
an object, so no chained `.get` hits a non-dictionary. -/
def goodIntermediates (fs : List (String × Json)) : Bool :=
  objOrAbsent fs "hiringOrganization" && objOrAbsent fs "educationRequirements" &&
  objOrAbsent fs "experienceRequirements" && objOrAbsent fs "salary" &&
  objOrAbsent fs "jobLocation" && objOrAbsent (subFields fs "jobLocation") "address"

/-- The description, when present, is a string, so `re.sub` accepts it. -/
def goodDescription (fs : List (String × Json)) : Bool :=
  match List.lookup "description" fs with
  | none => true
  | some (.str _) => true
  | some _ => false

/-- The record `transform` produces on a payload whose intermediates are
all objects-or-absent: every leaf is looked up with an empty-string
default. -/
def goodItem (fs : List (String × Json)) : TransformedItem :=
  { job := ⟨leafD fs "title", leafD fs "industry",
      .str (clean_description (strOf (leafD fs "description"))),
      leafD fs "employmentType", leafD fs "datePosted"⟩
    company := ⟨leafD (subFields fs "hiringOrganization") "name",
      leafD (subFields fs "hiringOrganization") "sameAs"⟩
    education := ⟨leafD (subFields fs "educationRequirements") "credentialCategory"⟩
    experience := ⟨leafD (subFields fs "experienceRequirements") "monthsOfExperience",
      leafD (subFields fs "experienceRequirements") "seniority_level"⟩
    salary := ⟨leafD (subFields fs "salary") "currency", leafD (subFields fs "salary") "min_value",
      leafD (subFields fs "salary") "max_value", leafD (subFields fs "salary") "unit"⟩
    location := ⟨leafD (subFields (subFields fs "jobLocation") "address") "addressCountry",
      leafD (subFields (subFields fs "jobLocation") "address") "addressLocality",
      leafD (subFields (subFields fs "jobLocation") "address") "addressRegion",
      leafD (subFields (subFields fs "jobLocation") "address") "postalCode",
      leafD (subFields (subFields fs "jobLocation") "address") "streetAddress",
      leafD (subFields fs "jobLocation") "latitude",
      leafD (subFields fs "jobLocation") "longitude"⟩ }

/-- The empty JSON object has no fields. -/
def emptyFields : List (String × Json) := []

/-! ## The transform loop and staging

`transform` iterates over the payload list with `enumerate`: it parses the
payload (`json.loads`, the external parser — a payload is represented
below by its parse result, `none` when the text is not valid JSON),
builds `transformed_item`, appends it to the result list and writes the
staging snapshot `staging/transformed/job_{index}.json`, then moves to
the next payload.  An exception propagates immediately, aborting the
batch; the staging files already written remain. -/

/-- Errors the per-record body of `transform` raises, tagged with the
index of the offending payload: `malformed` models the `json.loads`
failure on invalid JSON, `fieldError` an exception thrown while building
the record. -/
inductive TErr where
  | malformed (i : Nat) : TErr
  | fieldError (i : Nat) : TErr

/-- Embedding of the loop of `transform` in `etl.py`.  The first
component is the staging collaborator's log (index, snapshot) in write
order; the second is the returned record list, or the exception that
aborted the batch. -/
def transformList : List (Option Json) → Nat → List (Nat × TransformedItem) →
    List (Nat × TransformedItem) × Except TErr (List TransformedItem)
  | [], _, log => (log, .ok [])
  | none :: _, i, log => (log, .error (.malformed i))
  | some v :: ps, i, log =>
    match transform1 v with
    | none => (log, .error (.fieldError i))
    | some item =>
      let r := transformList ps (i + 1) (log ++ [(i, item)])
      (r.1, match r.2 with
        | .ok rest => .ok (item :: rest)
        | .error e => .error e)

/-- The records `transform` returns, `none` when it raises. -/
def recordsOf (r : List (Nat × TransformedItem) × Except TErr (List TransformedItem)) :
    Option (List TransformedItem) :=
  match r.2 with
  | .ok l => some l
  | .error _ => none

/-! ## The loader

`load` in `etl.py` opens one connection, then for each record issues six
INSERT statements: `job` first, then `company`, `education`, `experience`,
`salary`, `location`, each dependent insert filling `job_id` with
`last_insert_rowid()` evaluated at that insert.  In SQLite
`last_insert_rowid()` yields the rowid produced by the most recent
completed INSERT on the connection, whatever table it hit, and every one
of the six tables has its own `INTEGER PRIMARY KEY AUTOINCREMENT` rowid
sequence.  After the loop the code commits and closes the connection;
the close is the last statement of the function body, with no
`try`/`finally` around the loop. -/

structure JobRow where
  id : Nat
  data : JobRec

/-- A row of one of the five dependent tables: its own generated `id`,
the `job_id` column, and the remaining columns. -/
structure DepRow (α : Type) where
  id : Nat
  job_id : Nat
  data : α

/-- The SQLite store: the six tables, their autoincrement counters (the
next rowid each table will assign), and the connection-level
`last_insert_rowid()` register. -/
structure DB where
  jobs : List JobRow
  companies : List (DepRow CompanyRec)
  educations : List (DepRow EducationRec)
  experiences : List (DepRow ExperienceRec)
  salaries : List (DepRow SalaryRec)
  locations : List (DepRow LocationRec)
  jobSeq : Nat
  companySeq : Nat
  educationSeq : Nat
  experienceSeq : Nat
  salarySeq : Nat
  locationSeq : Nat
  lastRowid : Nat

def insertJob (db : DB) (r : JobRec) : DB :=
  { db with
    jobs := db.jobs ++ [⟨db.jobSeq, r⟩]
    jobSeq := db.jobSeq + 1
    lastRowid := db.jobSeq }

/-- INSERT INTO company (job_id, name, link) VALUES (last_insert_rowid(), ?, ?). -/
def insertCompany (db : DB) (r : CompanyRec) : DB :=
  { db with
    companies := db.companies ++ [⟨db.companySeq, db.lastRowid, r⟩]
    companySeq := db.companySeq + 1
    lastRowid := db.companySeq }

def insertEducation (db : DB) (r : EducationRec) : DB :=
  { db with
    educations := db.educations ++ [⟨db.educationSeq, db.lastRowid, r⟩]
    educationSeq := db.educationSeq + 1
    lastRowid := db.educationSeq }

def insertExperience (db : DB) (r : ExperienceRec) : DB :=
  { db with
    experiences := db.experiences ++ [⟨db.experienceSeq, db.lastRowid, r⟩]
    experienceSeq := db.experienceSeq + 1
    lastRowid := db.experienceSeq }

def insertSalary (db : DB) (r : SalaryRec) : DB :=
  { db with
    salaries := db.salaries ++ [⟨db.salarySeq, db.lastRowid, r⟩]
    salarySeq := db.salarySeq + 1
    lastRowid := db.salarySeq }

def insertLocation (db : DB) (r : LocationRec) : DB :=
  { db with
    locations := db.locations ++ [⟨db.locationSeq, db.lastRowid, r⟩]
    locationSeq := db.locationSeq + 1
    lastRowid := db.locationSeq }

/-- The six inserts the loop body of `load` issues for one record, in
source order. -/
def loadOne (db : DB) (it : TransformedItem) : DB :=
  insertLocation (insertSalary (insertExperience (insertEducation
    (insertCompany (insertJob db it.job) it.company) it.education)
    it.experience) it.salary) it.location

/-- Embedding of `load` in `etl.py` (the successful path: every insert
and the final commit succeed). -/
def load (items : List TransformedItem) (db : DB) : DB :=
  items.foldl loadOne db

/-- The empty store, as `TABLES_CREATION_QUERY` leaves it on first run:
no rows, every autoincrement counter at 1 (SQLite rowids start at 1). -/
def emptyDB : DB :=
  { jobs := []
    companies := []
    educations := []
    experiences := []
    salaries := []
    locations := []
    jobSeq := 1
    companySeq := 1
    educationSeq := 1
    experienceSeq := 1
    salarySeq := 1
    locationSeq := 1
    lastRowid := 0 }

/-- A normalized record with every field the empty string (what
`transform` produces from the empty JSON object). -/
def emptyItem : TransformedItem :=
  ⟨⟨.str "", .str "", .str "", .str "", .str ""⟩, ⟨.str "", .str ""⟩, ⟨.str ""⟩,
    ⟨.str "", .str ""⟩, ⟨.str "", .str "", .str "", .str ""⟩,
    ⟨.str "", .str "", .str "", .str "", .str "", .str "", .str ""⟩⟩

/-- A store in which the company table's autoincrement counter is ahead
of the others (here because the company table already holds a row): a
state SQLite accepts, under which the loader's `last_insert_rowid()`
reuse becomes visible. -/
def db0 : DB :=
  { emptyDB with
    companies := [⟨1, 1, ⟨.str "", .str ""⟩⟩]
    companySeq := 2 }

/-- All six autoincrement counters agree (true of the empty store and
preserved by `load`, which appends one row to every table per record). -/
def aligned (db : DB) (m : Nat) : Prop :=
  db.jobSeq = m ∧ db.companySeq = m ∧ db.educationSeq = m ∧
  db.experienceSeq = m ∧ db.salarySeq = m ∧ db.locationSeq = m

/-- The job rows `load` appends for the given records when every counter
starts at `m`. -/
def jobRowsOf : List TransformedItem → Nat → List JobRow
  | [], _ => []
  | it :: rest, m => ⟨m, it.job⟩ :: jobRowsOf rest (m + 1)

/-- The dependent-table rows `load` appends when every counter starts at
`m`: the row generated for the record at offset `j` has id `m + j` and
`job_id` `m + j`. -/
def depRowsOf (f : TransformedItem → α) : List TransformedItem → Nat → List (DepRow α)
  | [], _ => []
  | it :: rest, m => ⟨m, m, f it⟩ :: depRowsOf f rest (m + 1)

/-- Running the whole pipeline on pre-parsed payloads: `transform` first,
then `load`; when `transform` raises, the loader never runs and the store
is unchanged. -/
def etlRun (ps : List (Option Json)) (db : DB) : DB :=
  match (transformList ps 0 []).2 with
  | .ok items => load items db
  | .error _ => db

/-! ## Failure and resource tracking in the loader -/

/-- State of one `load` call: the store, how many statements have
completed, whether a statement has raised, and whether
`connection.close()` has run. -/
structure RunState where
  db : DB
  stmt : Nat
  failed : Bool
  connClosed : Bool

/-- Execute one statement (an insert or the commit): a no-op once an
exception is in flight; the statement at position `failAt` raises (the
store rejecting it). -/
def execStmt (failAt : Option Nat) (f : DB → DB) (st : RunState) : RunState :=
  if st.failed then st
  else if failAt = some st.stmt then { st with failed := true }
  else { st with db := f st.db, stmt := st.stmt + 1 }

/-- The six statements of the loop body of `load`, in source order. -/
def loadOneRun (failAt : Option Nat) (st : RunState) (it : TransformedItem) : RunState :=
  execStmt failAt (fun db => insertLocation db it.location)
    (execStmt failAt (fun db => insertSalary db it.salary)
      (execStmt failAt (fun db => insertExperience db it.experience)
        (execStmt failAt (fun db => insertEducation db it.education)
          (execStmt failAt (fun db => insertCompany db it.company)
            (execStmt failAt (fun db => insertJob db it.job) st)))))

/-- Embedding of the whole body of `load` with a possible store failure
at statement position `failAt`: the loop, then `connection.commit()`
(one more statement), then `connection.close()`.  The close is the last
statement of the straight-line function body — there is no
`try`/`finally` — so it runs only when no exception is in flight. -/
def loadRun (failAt : Option Nat) (items : List TransformedItem) (db : DB) : RunState :=
  let st := items.foldl (loadOneRun failAt) ⟨db, 0, false, false⟩
  let st2 := execStmt failAt id st
  if st2.failed then st2 else { st2 with connClosed := true }

theorem splitAtGt_length : ∀ {l l2 : List Char}, splitAtGt l = some l2 → l2.length < l.length := by
  intro l
  induction l with
  | nil => intro l2 h; simp [splitAtGt] at h
  | cons c rest ih =>
    intro l2 h
    by_cases hc : c = '>'
    · simp [splitAtGt, hc] at h
      subst h; simp
    · by_cases hn : c = '\n'
      · simp [splitAtGt, hc, hn] at h
      · simp [splitAtGt, hc, hn] at h
        exact Nat.lt_trans (ih h) (by simp)

theorem stripGo_congr : ∀ (n m : Nat) (l : List Char), l.length ≤ n → l.length ≤ m →
    stripGo n l = stripGo m l := by
  intro n
  induction n with
  | zero =>
    intro m l hn _
    have : l = [] := List.eq_nil_of_length_eq_zero (Nat.le_zero.mp hn)
    subst this
    cases m <;> rfl
  | succ n ih =>
    intro m l hn hm
    cases l with
    | nil => cases m <;> rfl
    | cons c rest =>
      cases m with
      | zero => simp at hm
      | succ m' =>
        simp only [List.length_cons, Nat.succ_le_succ_iff] at hn hm
        by_cases hc : c = '<'
        · subst hc
          cases h2 : splitAtGt rest with
          | some rest2 =>
            have hlen := splitAtGt_length h2
            simp only [stripGo, if_pos rfl, h2]
            exact ih m' rest2 (Nat.le_trans (Nat.le_of_lt hlen) hn)
              (Nat.le_trans (Nat.le_of_lt hlen) hm)
          | none =>
            simp only [stripGo, if_pos rfl, h2]
            exact congrArg _ (ih m' rest hn hm)
        · simp only [stripGo, if_neg hc]
          exact congrArg _ (ih m' rest hn hm)

theorem stripTags_nil : stripTags [] = [] := rfl

theorem stripTags_cons_other {c : Char} (rest : List Char) (hc : c ≠ '<') :
    stripTags (c :: rest) = c :: stripTags rest := by
  simp only [stripTags, List.length_cons, stripGo, if_neg hc]

theorem stripTags_cons_tag {rest rest2 : List Char} (h : splitAtGt rest = some rest2) :
    stripTags ('<' :: rest) = stripTags rest2 := by
  simp only [stripTags, List.length_cons, stripGo, if_pos rfl, h]
  exact stripGo_congr rest.length rest2.length rest2
    (Nat.le_of_lt (splitAtGt_length h)) (Nat.le_refl _)

theorem stripTags_cons_lone {rest : List Char} (h : splitAtGt rest = none) :
    stripTags ('<' :: rest) = '<' :: stripTags rest := by
  simp only [stripTags, List.length_cons, stripGo, if_pos rfl, h, ite_self]

theorem noGtBeforeNl_eq (l : List Char) : noGtBeforeNl l = (splitAtGt l).isNone := by
  induction l with
  | nil => rfl
  | cons c rest ih =>
    by_cases hc : c = '>'
    · simp [noGtBeforeNl, splitAtGt, hc]
    · by_cases hn : c = '\n'
      · simp [noGtBeforeNl, splitAtGt, hc, hn]
      · simp [noGtBeforeNl, splitAtGt, hc, hn, ih]

theorem strip_noGt : ∀ (n : Nat) (l : List Char), l.length ≤ n →
    noGtBeforeNl l = true → noGtBeforeNl (stripTags l) = true := by
  intro n
  induction n with
  | zero =>
    intro l hn _
    have : l = [] := List.eq_nil_of_length_eq_zero (Nat.le_zero.mp hn)
    subst this; rfl
  | succ n ih =>
    intro l hn hg
    cases l with
    | nil => rfl
    | cons c rest =>
      simp only [List.length_cons, Nat.succ_le_succ_iff] at hn
      by_cases hc : c = '<'
      · subst hc
        have hg' : noGtBeforeNl rest = true := by
          simpa [noGtBeforeNl] using hg
        cases h2 : splitAtGt rest with
        | some rest2 =>
          rw [noGtBeforeNl_eq, h2] at hg'
          simp at hg'
        | none =>
          rw [stripTags_cons_lone h2]
          simpa [noGtBeforeNl] using ih rest hn hg'
      · by_cases hgt : c = '>'
        · subst hgt; simp [noGtBeforeNl] at hg
        · rw [stripTags_cons_other rest hc]
          by_cases hnl : c = '\n'
          · simp [noGtBeforeNl, hnl]
          · have hg' : noGtBeforeNl rest = true := by
              simpa [noGtBeforeNl, hgt, hnl] using hg
            simpa [noGtBeforeNl, hgt, hnl] using ih rest hn hg'

theorem hasTagAux_of_noGt : ∀ (l : List Char), noGtBeforeNl l = true →
    hasTagAux l true = hasTagAux l false := by
  intro l
  induction l with
  | nil => intro _; rfl
  | cons c rest ih =>
    intro hg
    by_cases hgt : c = '>'
    · simp [noGtBeforeNl, hgt] at hg
    · by_cases hnl : c = '\n'
      · simp [hasTagAux, hgt, hnl]
      · have hg' : noGtBeforeNl rest = true := by
          simpa [noGtBeforeNl, hgt, hnl] using hg
        by_cases hlt : c = '<'
        · simp [hasTagAux, hgt, hnl, hlt]
        · simp only [hasTagAux, if_neg hgt, if_neg hnl, if_neg hlt]
          exact ih hg'

theorem hasTagAux_true_of_splitSome : ∀ {l l2 : List Char}, splitAtGt l = some l2 →
    hasTagAux l true = true := by
  intro l
  induction l with
  | nil => intro l2 h; simp [splitAtGt] at h
  | cons c rest ih =>
    intro l2 h
    by_cases hgt : c = '>'
    · simp [hasTagAux, hgt]
    · by_cases hnl : c = '\n'
      · simp [splitAtGt, hgt, hnl] at h
      · simp only [splitAtGt, if_neg hgt, if_neg hnl] at h
        by_cases hlt : c = '<'
        · simp only [hasTagAux, if_neg hgt, if_neg hnl, if_pos hlt]
          exact ih h
        · simp only [hasTagAux, if_neg hgt, if_neg hnl, if_neg hlt]
          exact ih h

theorem hasTagAux_mono : ∀ (l : List Char), hasTagAux l false = true →
    hasTagAux l true = true := by
  intro l
  induction l with
  | nil => intro h; simp [hasTagAux] at h
  | cons c rest ih =>
    intro h
    by_cases hgt : c = '>'
    · simp [hasTagAux, hgt]
    · by_cases hnl : c = '\n'
      · simp only [hasTagAux, if_neg hgt, if_pos hnl] at h ⊢
        exact h
      · by_cases hlt : c = '<'
        · simp only [hasTagAux, if_neg hgt, if_neg hnl, if_pos hlt] at h ⊢
          exact h
        · simp only [hasTagAux, if_neg hgt, if_neg hnl, if_neg hlt] at h ⊢
          exact ih h

theorem strip_fixpoint : ∀ (n : Nat) (l : List Char), l.length ≤ n →
    hasTagAux l false = false → stripTags l = l := by
  intro n
  induction n with
  | zero =>
    intro l hn _
    have : l = [] := List.eq_nil_of_length_eq_zero (Nat.le_zero.mp hn)
    subst this; rfl
  | succ n ih =>
    intro l hn h
    cases l with
    | nil => rfl
    | cons c rest =>
      simp only [List.length_cons, Nat.succ_le_succ_iff] at hn
      by_cases hlt : c = '<'
      · subst hlt
        have h' : hasTagAux rest true = false := by
          simpa [hasTagAux] using h
        cases h2 : splitAtGt rest with
        | some rest2 =>
          rw [hasTagAux_true_of_splitSome h2] at h'
          simp at h'
        | none =>
          rw [stripTags_cons_lone h2]
          have hrest : hasTagAux rest false = false := by
            cases hb : hasTagAux rest false with
            | false => rfl
            | true => rw [hasTagAux_mono rest hb] at h'; simp at h'
          rw [ih rest hn hrest]
      · rw [stripTags_cons_other rest hlt]
        have hrest : hasTagAux rest false = false := by
          by_cases hgt : c = '>'
          · simpa [hasTagAux, hgt] using h
          · by_cases hnl : c = '\n'
            · simpa [hasTagAux, hgt, hnl] using h
            · simpa [hasTagAux, hgt, hnl, hlt] using h
        rw [ih rest hn hrest]

theorem strip_noTag : ∀ (n : Nat) (l : List Char), l.length ≤ n →
    hasTagAux (stripTags l) false = false := by
  intro n
  induction n with
  | zero =>
    intro l hn
    have : l = [] := List.eq_nil_of_length_eq_zero (Nat.le_zero.mp hn)
    subst this; rfl
  | succ n ih =>
    intro l hn
    cases l with
    | nil => rfl
    | cons c rest =>
      simp only [List.length_cons, Nat.succ_le_succ_iff] at hn
      by_cases hlt : c = '<'
      · subst hlt
        cases h2 : splitAtGt rest with
        | some rest2 =>
          rw [stripTags_cons_tag h2]
          exact ih rest2 (Nat.le_trans (Nat.le_of_lt (splitAtGt_length h2)) hn)
        | none =>
          rw [stripTags_cons_lone h2]
          have hg : noGtBeforeNl rest = true := by
            rw [noGtBeforeNl_eq, h2]; rfl
          have hg2 : noGtBeforeNl (stripTags rest) = true := strip_noGt n rest hn hg
          simp only [hasTagAux, if_pos rfl]
          rw [if_neg (by decide : ¬('<' : Char) = '>'), if_neg (by decide : ¬('<' : Char) = '\n')]
          rw [hasTagAux_of_noGt (stripTags rest) hg2]
          exact ih rest hn
      · rw [stripTags_cons_other rest hlt]
        by_cases hgt : c = '>'
        · simp only [hasTagAux, if_pos hgt, Bool.false_eq_true, if_false]
          exact ih rest hn
        · by_cases hnl : c = '\n'
          · simp only [hasTagAux, if_neg hgt, if_pos hnl]
            exact ih rest hn
          · simp only [hasTagAux, if_neg hgt, if_neg hnl, if_neg hlt]
            exact ih rest hn

theorem get1_obj (fs : List (String × Json)) (k : String) :
    get1 (.obj fs) k = some (leafD fs k) := rfl

theorem get2_good (fs : List (String × Json)) (k1 k2 : String)
    (h : objOrAbsent fs k1 = true) :
    get2 (.obj fs) k1 k2 = some (leafD (subFields fs k1) k2) := by
  cases hl : List.lookup k1 fs with
  | none => simp [get2, pyGet, subFields, leafD, hl]
  | some w =>
    cases w with
    | obj gs => simp [get2, pyGet, subFields, leafD, hl]
    | null => simp [objOrAbsent, hl] at h
    | bool b => simp [objOrAbsent, hl] at h
    | num q => simp [objOrAbsent, hl] at h
    | str s => simp [objOrAbsent, hl] at h
    | arr es => simp [objOrAbsent, hl] at h

theorem get3_good (fs : List (String × Json)) (k1 k2 k3 : String)
    (h1 : objOrAbsent fs k1 = true) (h2 : objOrAbsent (subFields fs k1) k2 = true) :
    get3 (.obj fs) k1 k2 k3 = some (leafD (subFields (subFields fs k1) k2) k3) := by
  cases hl : List.lookup k1 fs with
  | none =>
    have hsub : subFields fs k1 = [] := by simp [subFields, hl]
    rw [hsub]
    simp [get3, pyGet, subFields, leafD, List.lookup, hl]
  | some w =>
    cases w with
    | obj gs =>
      have hsub : subFields fs k1 = gs := by simp [subFields, hl]
      rw [hsub] at h2 ⊢
      cases hl2 : List.lookup k2 gs with
      | none =>
        have hsub2 : subFields gs k2 = [] := by simp [subFields, hl2]
        rw [hsub2]
        simp [get3, pyGet, leafD, List.lookup, hl, hl2]
      | some u =>
        cases u with
        | obj hs =>
          have hsub2 : subFields gs k2 = hs := by simp [subFields, hl2]
          rw [hsub2]
          simp [get3, pyGet, leafD, hl, hl2]
        | null => simp [objOrAbsent, hl2] at h2
        | bool b => simp [objOrAbsent, hl2] at h2
        | num q => simp [objOrAbsent, hl2] at h2
        | str s => simp [objOrAbsent, hl2] at h2
        | arr es => simp [objOrAbsent, hl2] at h2
    | null => simp [objOrAbsent, hl] at h1
    | bool b => simp [objOrAbsent, hl] at h1
    | num q => simp [objOrAbsent, hl] at h1
    | str s => simp [objOrAbsent, hl] at h1
    | arr es => simp [objOrAbsent, hl] at h1

theorem extractJob_good (fs : List (String × Json)) (h : goodDescription fs = true) :
    extractJob (.obj fs) = some ⟨leafD fs "title", leafD fs "industry",
      .str (clean_description (strOf (leafD fs "description"))),
      leafD fs "employmentType", leafD fs "datePosted"⟩ := by
  cases hl : List.lookup "description" fs with
  | none => simp [extractJob, get1, pyGet, cleanJson, leafD, strOf, hl]
  | some w =>
    cases w with
    | str s => simp [extractJob, get1, pyGet, cleanJson, leafD, strOf, hl]
    | null => simp [goodDescription, hl] at h
    | bool b => simp [goodDescription, hl] at h
    | num q => simp [goodDescription, hl] at h
    | obj gs => simp [goodDescription, hl] at h
    | arr es => simp [goodDescription, hl] at h

theorem extractCompany_good (fs : List (String × Json))
    (h : objOrAbsent fs "hiringOrganization" = true) :
    extractCompany (.obj fs) = some ⟨leafD (subFields fs "hiringOrganization") "name",
      leafD (subFields fs "hiringOrganization") "sameAs"⟩ := by
  simp [extractCompany, get2_good fs _ _ h]

theorem extractEducation_good (fs : List (String × Json))
    (h : objOrAbsent fs "educationRequirements" = true) :
    extractEducation (.obj fs) =
      some ⟨leafD (subFields fs "educationRequirements") "credentialCategory"⟩ := by
  simp [extractEducation, get2_good fs _ _ h]

theorem extractExperience_good (fs : List (String × Json))
    (h : objOrAbsent fs "experienceRequirements" = true) :
    extractExperience (.obj fs) =
      some ⟨leafD (subFields fs "experienceRequirements") "monthsOfExperience",
        leafD (subFields fs "experienceRequirements") "seniority_level"⟩ := by
  simp [extractExperience, get2_good fs _ _ h]

theorem extractSalary_good (fs : List (String × Json))
    (h : objOrAbsent fs "salary" = true) :
    extractSalary (.obj fs) = some ⟨leafD (subFields fs "salary") "currency",
      leafD (subFields fs "salary") "min_value", leafD (subFields fs "salary") "max_value",
      leafD (subFields fs "salary") "unit"⟩ := by
  simp [extractSalary, get2_good fs _ _ h]

theorem extractLocation_good (fs : List (String × Json))
    (h1 : objOrAbsent fs "jobLocation" = true)
    (h2 : objOrAbsent (subFields fs "jobLocation") "address" = true) :
    extractLocation (.obj fs) =
      some ⟨leafD (subFields (subFields fs "jobLocation") "address") "addressCountry",
        leafD (subFields (subFields fs "jobLocation") "address") "addressLocality",
        leafD (subFields (subFields fs "jobLocation") "address") "addressRegion",
        leafD (subFields (subFields fs "jobLocation") "address") "postalCode",
        leafD (subFields (subFields fs "jobLocation") "address") "streetAddress",
        leafD (subFields fs "jobLocation") "latitude",
        leafD (subFields fs "jobLocation") "longitude"⟩ := by
  simp [extractLocation, get3_good fs _ _ _ h1 h2, get2_good fs _ _ h1]

theorem transform1_good (fs : List (String × Json))
    (h1 : goodIntermediates fs = true) (h2 : goodDescription fs = true) :
    transform1 (.obj fs) = some (goodItem fs) := by
  simp only [goodIntermediates, Bool.and_eq_true] at h1
  obtain ⟨⟨⟨⟨⟨hco, hed⟩, hex⟩, hsa⟩, hjl⟩, had⟩ := h1
  simp [transform1, extractJob_good fs h2, extractCompany_good fs hco,
    extractEducation_good fs hed, extractExperience_good fs hex,
    extractSalary_good fs hsa, extractLocation_good fs hjl had, goodItem]

theorem clean_description_empty : clean_description "" = "" := rfl

/-- C3: for every payload that parses to a JSON object whose present
intermediate values are objects and whose description, when present, is a
string, `transform` raises no error, and every leaf whose lookup path hits
an absent key — at any nesting depth — resolves to the empty string.  The
hypotheses never constrain an absent key, so absence alone cannot make
`transform` fail. -/
theorem transform_null_safe (fs : List (String × Json))
    (h1 : goodIntermediates fs = true) (h2 : goodDescription fs = true) :
    ∃ r, transform1 (.obj fs) = some r ∧
      (List.lookup "title" fs = none → r.job.title = .str "") ∧
      (List.lookup "industry" fs = none → r.job.industry = .str "") ∧
      (List.lookup "description" fs = none → r.job.description = .str "") ∧
      (List.lookup "employmentType" fs = none → r.job.employment_type = .str "") ∧
      (List.lookup "datePosted" fs = none → r.job.date_posted = .str "") ∧
      (List.lookup "hiringOrganization" fs = none →
        r.company.name = .str "" ∧ r.company.link = .str "") ∧
      (∀ gs, List.lookup "hiringOrganization" fs = some (.obj gs) →
        (List.lookup "name" gs = none → r.company.name = .str "") ∧
        (List.lookup "sameAs" gs = none → r.company.link = .str "")) ∧
      (List.lookup "educationRequirements" fs = none →
        r.education.required_credential = .str "") ∧
      (∀ gs, List.lookup "educationRequirements" fs = some (.obj gs) →
        List.lookup "credentialCategory" gs = none →
        r.education.required_credential = .str "") ∧
      (List.lookup "experienceRequirements" fs = none →
        r.experience.months_of_experience = .str "" ∧
        r.experience.seniority_level = .str "") ∧
      (∀ gs, List.lookup "experienceRequirements" fs = some (.obj gs) →
        (List.lookup "monthsOfExperience" gs = none →
          r.experience.months_of_experience = .str "") ∧
        (List.lookup "seniority_level" gs = none →
          r.experience.seniority_level = .str "")) ∧
      (List.lookup "salary" fs = none →
        r.salary.currency = .str "" ∧ r.salary.min_value = .str "" ∧
        r.salary.max_value = .str "" ∧ r.salary.unit = .str "") ∧
      (∀ gs, List.lookup "salary" fs = some (.obj gs) →
        (List.lookup "currency" gs = none → r.salary.currency = .str "") ∧
        (List.lookup "min_value" gs = none → r.salary.min_value = .str "") ∧
        (List.lookup "max_value" gs = none → r.salary.max_value = .str "") ∧
        (List.lookup "unit" gs = none → r.salary.unit = .str "")) ∧
      (List.lookup "jobLocation" fs = none →
        r.location.country = .str "" ∧ r.location.locality = .str "" ∧
        r.location.region = .str "" ∧ r.location.postal_code = .str "" ∧
        r.location.street_address = .str "" ∧ r.location.latitude = .str "" ∧
        r.location.longitude = .str "") ∧
      (∀ gs, List.lookup "jobLocation" fs = some (.obj gs) →
        (List.lookup "latitude" gs = none → r.location.latitude = .str "") ∧
        (List.lookup "longitude" gs = none → r.location.longitude = .str "") ∧
        (List.lookup "address" gs = none →
          r.location.country = .str "" ∧ r.location.locality = .str "" ∧
          r.location.region = .str "" ∧ r.location.postal_code = .str "" ∧
          r.location.street_address = .str "") ∧
        (∀ hs, List.lookup "address" gs = some (.obj hs) →
          (List.lookup "addressCountry" hs = none → r.location.country = .str "") ∧
          (List.lookup "addressLocality" hs = none → r.location.locality = .str "") ∧
          (List.lookup "addressRegion" hs = none → r.location.region = .str "") ∧
          (List.lookup "postalCode" hs = none → r.location.postal_code = .str "") ∧
          (List.lookup "streetAddress" hs = none →
            r.location.street_address = .str ""))) := by
  refine ⟨goodItem fs, transform1_good fs h1 h2, ?_, ?_, ?_, ?_, ?_, ?_, ?_, ?_, ?_, ?_,
    ?_, ?_, ?_, ?_, ?_⟩
  · intro h; simp [goodItem, leafD, h]
  · intro h; simp [goodItem, leafD, h]
  · intro h; simp [goodItem, leafD, strOf, h, clean_description_empty]
  · intro h; simp [goodItem, leafD, h]
  · intro h; simp [goodItem, leafD, h]
  · intro h; simp [goodItem, subFields, leafD, h, List.lookup]
  · intro gs hgs
    constructor <;> intro h <;> simp [goodItem, subFields, leafD, hgs, h]
  · intro h; simp [goodItem, subFields, leafD, h, List.lookup]
  · intro gs hgs h; simp [goodItem, subFields, leafD, hgs, h]
  · intro h; simp [goodItem, subFields, leafD, h, List.lookup]
  · intro gs hgs
    constructor <;> intro h <;> simp [goodItem, subFields, leafD, hgs, h]
  · intro h; simp [goodItem, subFields, leafD, h, List.lookup]
  · intro gs hgs
    refine ⟨?_, ?_, ?_, ?_⟩ <;> intro h <;> simp [goodItem, subFields, leafD, hgs, h]
  · intro h; simp [goodItem, subFields, leafD, h, List.lookup]
  · intro gs hgs
    refine ⟨?_, ?_, ?_, ?_⟩
    · intro h; simp [goodItem, subFields, leafD, hgs, h]
    · intro h; simp [goodItem, subFields, leafD, hgs, h]
    · intro h; simp [goodItem, subFields, leafD, hgs, h, List.lookup]
    · intro hs hhs
      refine ⟨?_, ?_, ?_, ?_, ?_⟩ <;> intro h <;>
        simp [goodItem, subFields, leafD, hgs, hhs, h]

/-- C3 witness: the empty JSON object satisfies both hypotheses, and on it
every leaf of the normalized record is the empty string. -/
theorem transform_null_safe_witness :
    goodIntermediates emptyFields = true ∧ goodDescription emptyFields = true ∧
    (∃ r, transform1 (.obj emptyFields) = some r ∧
      (List.lookup "title" emptyFields = none → r.job.title = .str "") ∧
      (List.lookup "industry" emptyFields = none → r.job.industry = .str "") ∧
      (List.lookup "description" emptyFields = none → r.job.description = .str "") ∧
      (List.lookup "employmentType" emptyFields = none → r.job.employment_type = .str "") ∧
      (List.lookup "datePosted" emptyFields = none → r.job.date_posted = .str "") ∧
      (List.lookup "hiringOrganization" emptyFields = none →
        r.company.name = .str "" ∧ r.company.link = .str "") ∧
      (∀ gs, List.lookup "hiringOrganization" emptyFields = some (.obj gs) →
        (List.lookup "name" gs = none → r.company.name = .str "") ∧
        (List.lookup "sameAs" gs = none → r.company.link = .str "")) ∧
      (List.lookup "educationRequirements" emptyFields = none →
        r.education.required_credential = .str "") ∧
      (∀ gs, List.lookup "educationRequirements" emptyFields = some (.obj gs) →
        List.lookup "credentialCategory" gs = none →
        r.education.required_credential = .str "") ∧
      (List.lookup "experienceRequirements" emptyFields = none →
        r.experience.months_of_experience = .str "" ∧
        r.experience.seniority_level = .str "") ∧
      (∀ gs, List.lookup "experienceRequirements" emptyFields = some (.obj gs) →
        (List.lookup "monthsOfExperience" gs = none →
          r.experience.months_of_experience = .str "") ∧
        (List.lookup "seniority_level" gs = none →
          r.experience.seniority_level = .str "")) ∧
      (List.lookup "salary" emptyFields = none →
        r.salary.currency = .str "" ∧ r.salary.min_value = .str "" ∧
        r.salary.max_value = .str "" ∧ r.salary.unit = .str "") ∧
      (∀ gs, List.lookup "salary" emptyFields = some (.obj gs) →
        (List.lookup "currency" gs = none → r.salary.currency = .str "") ∧
        (List.lookup "min_value" gs = none → r.salary.min_value = .str "") ∧
        (List.lookup "max_value" gs = none → r.salary.max_value = .str "") ∧
        (List.lookup "unit" gs = none → r.salary.unit = .str "")) ∧
      (List.lookup "jobLocation" emptyFields = none →
        r.location.country = .str "" ∧ r.location.locality = .str "" ∧
        r.location.region = .str "" ∧ r.location.postal_code = .str "" ∧
        r.location.street_address = .str "" ∧ r.location.latitude = .str "" ∧
        r.location.longitude = .str "") ∧
      (∀ gs, List.lookup "jobLocation" emptyFields = some (.obj gs) →
        (List.lookup "latitude" gs = none → r.location.latitude = .str "") ∧
        (List.lookup "longitude" gs = none → r.location.longitude = .str "") ∧
        (List.lookup "address" gs = none →
          r.location.country = .str "" ∧ r.location.locality = .str "" ∧
          r.location.region = .str "" ∧ r.location.postal_code = .str "" ∧
          r.location.street_address = .str "") ∧
        (∀ hs, List.lookup "address" gs = some (.obj hs) →
          (List.lookup "addressCountry" hs = none → r.location.country = .str "") ∧
          (List.lookup "addressLocality" hs = none → r.location.locality = .str "") ∧
          (List.lookup "addressRegion" hs = none → r.location.region = .str "") ∧
          (List.lookup "postalCode" hs = none → r.location.postal_code = .str "") ∧
          (List.lookup "streetAddress" hs = none →
            r.location.street_address = .str "")))) :=
  ⟨rfl, rfl, transform_null_safe emptyFields rfl rfl⟩

/-- C8: null-safe defaulting covers only absent keys: a payload whose
`hiringOrganization` is explicitly JSON `null`, and a syntactically valid
payload whose top-level value is not an object, both make `transform`
raise (`.get` on a non-dictionary) instead of yielding a record of empty
strings. -/
theorem transform_errors_on_present_null :
    transform1 (.obj [("hiringOrganization", Json.null)]) = none ∧
    transform1 Json.null = none := by
  constructor <;> rfl

theorem recordsOf_indep : ∀ (ps : List (Option Json)) (i1 i2 : Nat)
    (log1 log2 : List (Nat × TransformedItem)),
    recordsOf (transformList ps i1 log1) = recordsOf (transformList ps i2 log2) := by
  intro ps
  induction ps with
  | nil => intro i1 i2 log1 log2; rfl
  | cons p rest ih =>
    intro i1 i2 log1 log2
    cases p with
    | none => rfl
    | some v =>
      cases hit : transform1 v with
      | none => simp [transformList, hit, recordsOf]
      | some item =>
        have h := ih (i1 + 1) (i2 + 1) (log1 ++ [(i1, item)]) (log2 ++ [(i2, item)])
        simp only [transformList, hit, recordsOf] at h ⊢
        cases h1 : (transformList rest (i1 + 1) (log1 ++ [(i1, item)])).2 with
        | ok l1 =>
          cases h2 : (transformList rest (i2 + 1) (log2 ++ [(i2, item)])).2 with
          | ok l2 =>
            rw [h1, h2] at h
            simp at h
            simp [h]
          | error e2 => rw [h1, h2] at h; simp at h
        | error e1 =>
          cases h2 : (transformList rest (i2 + 1) (log2 ++ [(i2, item)])).2 with
          | ok l2 => rw [h1, h2] at h; simp at h
          | error e2 => simp

theorem transformList_first_malformed : ∀ (k : Nat) (ps : List (Option Json)) (i : Nat)
    (log : List (Nat × TransformedItem)),
    (∀ j, j < k → ∃ p item, ps.get? j = some (some p) ∧ transform1 p = some item) →
    ps.get? k = some none →
    (transformList ps i log).2 = .error (.malformed (i + k)) := by
  intro k
  induction k with
  | zero =>
    intro ps i log _ hk
    cases ps with
    | nil => simp at hk
    | cons p rest =>
      have hp : p = none := by simpa using hk
      subst hp
      simp [transformList]
  | succ k ih =>
    intro ps i log hgood hk
    cases ps with
    | nil => simp at hk
    | cons p rest =>
      obtain ⟨p0, item0, hp0, hitem⟩ := hgood 0 (Nat.succ_pos k)
      have hp : p = some p0 := by simpa using hp0
      subst hp
      have hk' : rest.get? k = some none := by simpa using hk
      have hgood' : ∀ j, j < k →
          ∃ p item, rest.get? j = some (some p) ∧ transform1 p = some item := by
        intro j hj
        have := hgood (j + 1) (Nat.succ_lt_succ hj)
        simpa using this
      have hrec := ih rest (i + 1) (log ++ [(i, item0)]) hgood' hk'
      have harith : i + 1 + k = i + (k + 1) := by omega
      simp only [transformList, hitem, hrec, harith]

theorem transformList_log_of_bad : ∀ (k : Nat) (ps : List (Option Json)) (i : Nat)
    (log : List (Nat × TransformedItem)) (items : Nat → TransformedItem),
    (∀ j, j < k → ∃ p, ps.get? j = some (some p) ∧ transform1 p = some (items j)) →
    (ps.get? k = some none ∨
      ∃ p, ps.get? k = some (some p) ∧ transform1 p = none) →
    (transformList ps i log).1 = log ++ (List.range k).map (fun j => (i + j, items j)) ∧
    ∃ e, (transformList ps i log).2 = .error e := by
  intro k
  induction k with
  | zero =>
    intro ps i log items _ hbad
    cases hbad with
    | inl h =>
      cases ps with
      | nil => simp at h
      | cons p rest =>
        have hp : p = none := by simpa using h
        subst hp
        simp [transformList]
    | inr h =>
      obtain ⟨p, hp, hnone⟩ := h
      cases ps with
      | nil => simp at hp
      | cons q rest =>
        have hq : q = some p := by simpa using hp
        subst hq
        simp [transformList, hnone]
  | succ k ih =>
    intro ps i log items hgood hbad
    cases ps with
    | nil =>
      cases hbad with
      | inl h => simp at h
      | inr h => obtain ⟨p, hp, _⟩ := h; simp at hp
    | cons q rest =>
      obtain ⟨p0, hq0, hitem0⟩ := hgood 0 (Nat.succ_pos k)
      have hq : q = some p0 := by simpa using hq0
      subst hq
      have hgood' : ∀ j, j < k →
          ∃ p, rest.get? j = some (some p) ∧ transform1 p = some (items (j + 1)) := by
        intro j hj
        obtain ⟨p, hp, hit⟩ := hgood (j + 1) (Nat.succ_lt_succ hj)
        exact ⟨p, by simpa using hp, hit⟩
      have hbad' : rest.get? k = some none ∨
          ∃ p, rest.get? k = some (some p) ∧ transform1 p = none := by
        cases hbad with
        | inl h => exact .inl (by simpa using h)
        | inr h =>
          obtain ⟨p, hp, hnone⟩ := h
          exact .inr ⟨p, by simpa using hp, hnone⟩
      have hrec := ih rest (i + 1) (log ++ [(i, items 0)]) (fun j => items (j + 1))
        hgood' hbad'
      constructor
      · simp only [transformList, hitem0]
        rw [hrec.1]
        rw [List.range_succ_eq_map, List.map_cons, List.map_map]
        simp only [List.append_assoc, List.singleton_append, Nat.add_zero]
        have hfun : (fun j => (i + 1 + j, items (j + 1))) =
            ((fun j => (i + j, items j)) ∘ Nat.succ) := by
          funext j
          simp only [Function.comp_apply]
          rw [show i + 1 + j = i + Nat.succ j by omega]
        rw [hfun]
      · simp only [transformList, hitem0]
        obtain ⟨e, he⟩ := hrec.2
        exact ⟨e, by rw [he]⟩

theorem loadOne_aligned (db : DB) (m : Nat) (it : TransformedItem)
    (h : aligned db m) :
    loadOne db it =
      { jobs := db.jobs ++ [⟨m, it.job⟩]
        companies := db.companies ++ [⟨m, m, it.company⟩]
        educations := db.educations ++ [⟨m, m, it.education⟩]
        experiences := db.experiences ++ [⟨m, m, it.experience⟩]
        salaries := db.salaries ++ [⟨m, m, it.salary⟩]
        locations := db.locations ++ [⟨m, m, it.location⟩]
        jobSeq := m + 1
        companySeq := m + 1
        educationSeq := m + 1
        experienceSeq := m + 1
        salarySeq := m + 1
        locationSeq := m + 1
        lastRowid := m } := by
  obtain ⟨h1, h2, h3, h4, h5, h6⟩ := h
  simp [loadOne, insertJob, insertCompany, insertEducation, insertExperience,
    insertSalary, insertLocation, h1, h2, h3, h4, h5, h6]

theorem load_spec : ∀ (items : List TransformedItem) (db : DB) (m : Nat),
    aligned db m →
    (load items db).jobs = db.jobs ++ jobRowsOf items m ∧
    (load items db).companies = db.companies ++ depRowsOf (fun it => it.company) items m ∧
    (load items db).educations = db.educations ++ depRowsOf (fun it => it.education) items m ∧
    (load items db).experiences = db.experiences ++ depRowsOf (fun it => it.experience) items m ∧
    (load items db).salaries = db.salaries ++ depRowsOf (fun it => it.salary) items m ∧
    (load items db).locations = db.locations ++ depRowsOf (fun it => it.location) items m ∧
    aligned (load items db) (m + items.length) := by
  intro items
  induction items with
  | nil =>
    intro db m h
    refine ⟨by simp [load, jobRowsOf], by simp [load, depRowsOf], by simp [load, depRowsOf],
      by simp [load, depRowsOf], by simp [load, depRowsOf], by simp [load, depRowsOf], ?_⟩
    simpa [load] using h
  | cons it rest ih =>
    intro db m h
    have hstep : load (it :: rest) db = load rest (loadOne db it) := rfl
    rw [hstep, loadOne_aligned db m it h]
    have halig : aligned
        { jobs := db.jobs ++ [⟨m, it.job⟩]
          companies := db.companies ++ [⟨m, m, it.company⟩]
          educations := db.educations ++ [⟨m, m, it.education⟩]
          experiences := db.experiences ++ [⟨m, m, it.experience⟩]
          salaries := db.salaries ++ [⟨m, m, it.salary⟩]
          locations := db.locations ++ [⟨m, m, it.location⟩]
          jobSeq := m + 1
          companySeq := m + 1
          educationSeq := m + 1
          experienceSeq := m + 1
          salarySeq := m + 1
          locationSeq := m + 1
          lastRowid := m } (m + 1) :=
      ⟨rfl, rfl, rfl, rfl, rfl, rfl⟩
    obtain ⟨hj, hc, hed, hex, hsa, hlo, hal⟩ := ih _ (m + 1) halig
    refine ⟨?_, ?_, ?_, ?_, ?_, ?_, ?_⟩
    · rw [hj]; simp [jobRowsOf]
    · rw [hc]; simp [depRowsOf]
    · rw [hed]; simp [depRowsOf]
    · rw [hex]; simp [depRowsOf]
    · rw [hsa]; simp [depRowsOf]
    · rw [hlo]; simp [depRowsOf]
    · have harith : m + (it :: rest).length = (m + 1) + rest.length := by
        simp only [List.length_cons]
        omega
      rw [harith]
      exact hal

theorem jobRowsOf_length : ∀ (items : List TransformedItem) (m : Nat),
    (jobRowsOf items m).length = items.length := by
  intro items
  induction items with
  | nil => intro m; rfl
  | cons it rest ih => intro m; simp [jobRowsOf, ih]

theorem mem_jobRowsOf_bounds : ∀ (items : List TransformedItem) (m : Nat) (j : JobRow),
    j ∈ jobRowsOf items m → m ≤ j.id ∧ j.id < m + items.length := by
  intro items
  induction items with
  | nil => intro m j h; simp [jobRowsOf] at h
  | cons it rest ih =>
    intro m j h
    simp only [jobRowsOf, List.mem_cons] at h
    cases h with
    | inl h =>
      subst h
      simp only [List.length_cons]
      exact ⟨Nat.le_refl m, by omega⟩
    | inr h =>
      obtain ⟨hle, hlt⟩ := ih (m + 1) j h
      refine ⟨by omega, ?_⟩
      simp only [List.length_cons]
      omega

theorem depRowsOf_count_lt {α : Type} (f : TransformedItem → α) :
    ∀ (items : List TransformedItem) (m k : Nat), k < m →
    (depRowsOf f items m).countP (fun r => r.job_id == k) = 0 := by
  intro items
  induction items with
  | nil => intro m k _; rfl
  | cons it rest ih =>
    intro m k hk
    simp only [depRowsOf, List.countP_cons]
    rw [ih (m + 1) k (by omega)]
    have hne : m ≠ k := by omega
    simp [hne]

theorem depRowsOf_count_one {α : Type} (f : TransformedItem → α) :
    ∀ (items : List TransformedItem) (m k : Nat), m ≤ k → k < m + items.length →
    (depRowsOf f items m).countP (fun r => r.job_id == k) = 1 := by
  intro items
  induction items with
  | nil =>
    intro m k h1 h2
    simp only [List.length_nil, Nat.add_zero] at h2
    omega
  | cons it rest ih =>
    intro m k h1 h2
    simp only [depRowsOf, List.countP_cons]
    by_cases hk : k = m
    · subst hk
      rw [depRowsOf_count_lt f rest (k + 1) k (by omega)]
      simp
    · have hmk : m ≠ k := fun hr => hk hr.symm
      rw [ih (m + 1) k (by omega) (by simp only [List.length_cons] at h2; omega)]
      simp [hmk]

theorem execStmt_none_failed (f : DB → DB) (st : RunState) :
    (execStmt none f st).failed = st.failed := by
  unfold execStmt
  by_cases h : st.failed
  · simp [h]
  · simp [h]

theorem loadOneRun_none_failed (st : RunState) (it : TransformedItem) :
    (loadOneRun none st it).failed = st.failed := by
  simp [loadOneRun, execStmt_none_failed]

theorem foldl_loadOneRun_none_failed : ∀ (items : List TransformedItem) (st : RunState),
    (items.foldl (loadOneRun none) st).failed = st.failed := by
  intro items
  induction items with
  | nil => intro st; rfl
  | cons it rest ih =>
    intro st
    rw [List.foldl_cons, ih, loadOneRun_none_failed]

/-! ## The claims -/

/-- C1: the claim that every dependent row carries the identifier
generated by step 1's job insert fails on the code: each dependent INSERT
re-reads `last_insert_rowid()`, which after the company insert names the
previous dependent insert's own rowid, not the job's.  On a store whose
company counter is ahead (`db0`), loading one record gives the job row id
1 but the education row `job_id` 2 — the id generated by the intervening
company insert — so no education row references any job row. -/
theorem load_dependent_row_takes_intervening_id :
    (load [emptyItem] db0).jobs.map (fun r => r.id) = [1] ∧
    (load [emptyItem] db0).companies.map (fun r => r.job_id) = [1, 1] ∧
    (load [emptyItem] db0).educations.map (fun r => r.job_id) = [2] ∧
    ∀ e ∈ (load [emptyItem] db0).educations, ∀ j ∈ (load [emptyItem] db0).jobs,
      e.job_id ≠ j.id := by
  refine ⟨rfl, rfl, rfl, ?_⟩
  decide

/-- C2: on a store whose autoincrement counters agree (the state every
run of this system produces, starting from the empty store the DDL
creates), `load` inserts exactly one job row per input record, and
exactly one row into each of the five dependent tables sharing each
inserted job row's generated id. -/
theorem load_round_trip_counts (items : List TransformedItem) (db : DB) (m : Nat)
    (h : aligned db m) :
    (load items db).jobs.length = db.jobs.length + items.length ∧
    ∀ j ∈ (load items db).jobs.drop db.jobs.length,
      ((load items db).companies.drop db.companies.length).countP
        (fun r => r.job_id == j.id) = 1 ∧
      ((load items db).educations.drop db.educations.length).countP
        (fun r => r.job_id == j.id) = 1 ∧
      ((load items db).experiences.drop db.experiences.length).countP
        (fun r => r.job_id == j.id) = 1 ∧
      ((load items db).salaries.drop db.salaries.length).countP
        (fun r => r.job_id == j.id) = 1 ∧
      ((load items db).locations.drop db.locations.length).countP
        (fun r => r.job_id == j.id) = 1 := by
  obtain ⟨hj, hc, hed, hex, hsa, hlo, _⟩ := load_spec items db m h
  constructor
  · rw [hj]
    simp [jobRowsOf_length]
  · intro j hjmem
    rw [hj, List.drop_left] at hjmem
    obtain ⟨hle, hlt⟩ := mem_jobRowsOf_bounds items m j hjmem
    refine ⟨?_, ?_, ?_, ?_, ?_⟩
    · rw [hc, List.drop_left]
      exact depRowsOf_count_one _ items m j.id hle hlt
    · rw [hed, List.drop_left]
      exact depRowsOf_count_one _ items m j.id hle hlt
    · rw [hex, List.drop_left]
      exact depRowsOf_count_one _ items m j.id hle hlt
    · rw [hsa, List.drop_left]
      exact depRowsOf_count_one _ items m j.id hle hlt
    · rw [hlo, List.drop_left]
      exact depRowsOf_count_one _ items m j.id hle hlt

/-- C2 witness: two records loaded into the empty store. -/
theorem load_round_trip_counts_witness :
    aligned emptyDB 1 ∧
    ((load [emptyItem, emptyItem] emptyDB).jobs.length =
        emptyDB.jobs.length + [emptyItem, emptyItem].length ∧
      ∀ j ∈ (load [emptyItem, emptyItem] emptyDB).jobs.drop emptyDB.jobs.length,
        ((load [emptyItem, emptyItem] emptyDB).companies.drop
          emptyDB.companies.length).countP (fun r => r.job_id == j.id) = 1 ∧
        ((load [emptyItem, emptyItem] emptyDB).educations.drop
          emptyDB.educations.length).countP (fun r => r.job_id == j.id) = 1 ∧
        ((load [emptyItem, emptyItem] emptyDB).experiences.drop
          emptyDB.experiences.length).countP (fun r => r.job_id == j.id) = 1 ∧
        ((load [emptyItem, emptyItem] emptyDB).salaries.drop
          emptyDB.salaries.length).countP (fun r => r.job_id == j.id) = 1 ∧
        ((load [emptyItem, emptyItem] emptyDB).locations.drop
          emptyDB.locations.length).countP (fun r => r.job_id == j.id) = 1) :=
  ⟨⟨rfl, rfl, rfl, rfl, rfl, rfl⟩,
    load_round_trip_counts [emptyItem, emptyItem] emptyDB 1 ⟨rfl, rfl, rfl, rfl, rfl, rfl⟩⟩

/-- C4: when the payload at index `k` is not valid JSON and every payload
before it normalizes, `transform` raises `json.loads`'s error at index
`k` (aborting the batch, so no record list is returned), and the store is
untouched: no rows are persisted for that record. -/
theorem malformed_payload_aborts_batch (ps : List (Option Json)) (k : Nat) (db : DB)
    (hgood : ∀ j, j < k → ∃ p item, ps.get? j = some (some p) ∧ transform1 p = some item)
    (hk : ps.get? k = some none) :
    (transformList ps 0 []).2 = .error (.malformed k) ∧
    recordsOf (transformList ps 0 []) = none ∧
    etlRun ps db = db := by
  have herr := transformList_first_malformed k ps 0 [] hgood hk
  rw [Nat.zero_add] at herr
  refine ⟨herr, ?_, ?_⟩
  · simp [recordsOf, herr]
  · simp [etlRun, herr]

/-- C4 witness: a valid empty-object payload followed by one that fails
to parse. -/
theorem malformed_payload_aborts_batch_witness :
    (∀ j, j < 1 → ∃ p item,
      ([some (.obj emptyFields), none] : List (Option Json)).get? j = some (some p) ∧
      transform1 p = some item) ∧
    ([some (.obj emptyFields), none] : List (Option Json)).get? 1 = some none ∧
    ((transformList [some (.obj emptyFields), none] 0 []).2 = .error (.malformed 1) ∧
      recordsOf (transformList [some (.obj emptyFields), none] 0 []) = none ∧
      etlRun [some (.obj emptyFields), none] emptyDB = emptyDB) := by
  have hgood : ∀ j, j < 1 → ∃ p item,
      ([some (.obj emptyFields), none] : List (Option Json)).get? j = some (some p) ∧
      transform1 p = some item := by
    intro j hj
    cases j with
    | zero => exact ⟨.obj emptyFields, goodItem emptyFields, rfl, rfl⟩
    | succ n => omega
  exact ⟨hgood, rfl, malformed_payload_aborts_batch _ 1 emptyDB hgood rfl⟩

/-- C5: the tag stripper is idempotent (its output contains no remaining
single-line tag, so a second pass finds nothing to remove), and it strips
the example markup. -/
theorem clean_description_idempotent :
    (∀ s : String, clean_description (clean_description s) = clean_description s) ∧
    clean_description "<b>Senior</b> Engineer" = "Senior Engineer" := by
  constructor
  · intro s
    have h := strip_fixpoint (stripTags s.data).length (stripTags s.data) (Nat.le_refl _)
      (strip_noTag s.data.length s.data (Nat.le_refl _))
    show (⟨stripTags (stripTags s.data)⟩ : String) = ⟨stripTags s.data⟩
    rw [h]
  · decide

/-- C6 counterexample: the claim that the output never contains a
substring of the form `<`, then any characters, then `>` fails: `.` in
the pattern `<.*?>` does not match a newline, so a tag spanning a newline
survives verbatim. -/
theorem clean_description_leaves_newline_tag :
    clean_description "a<b\n>c" = "a<b\n>c" ∧
    hasAnyTagAux (clean_description "a<b\n>c").data false = true := by
  constructor <;> decide

/-- C6 amended: the output of `clean_description` contains no complete
tag lying within one line — no substring `<`, then characters none of
which is a newline, then `>` — which is exactly the set of substrings
the non-greedy pattern `<.*?>` matches. -/
theorem clean_description_no_singleline_tag (s : String) :
    hasTagAux (clean_description s).data false = false :=
  strip_noTag s.data.length s.data (Nat.le_refl _)

/-- C7 counterexample: the claim that the connection is closed on every
exit path fails: `connection.close()` is the last statement of a
straight-line body with no `try`/`finally`, so when the very first insert
raises, the error propagates with the connection still open. -/
theorem load_failure_skips_close :
    (loadRun (some 0) [emptyItem] emptyDB).failed = true ∧
    (loadRun (some 0) [emptyItem] emptyDB).connClosed = false := by
  constructor <;> rfl

/-- C7 amended: the connection is acquired once at entry and closed on
the successful path — when every insert and the commit succeed, the load
ends with the connection closed and no error. -/
theorem load_success_closes_connection (items : List TransformedItem) (db : DB) :
    (loadRun none items db).connClosed = true ∧ (loadRun none items db).failed = false := by
  have hf : (items.foldl (loadOneRun none) ⟨db, 0, false, false⟩).failed = false :=
    foldl_loadOneRun_none_failed items ⟨db, 0, false, false⟩
  have hf2 : (execStmt none id (items.foldl (loadOneRun none) ⟨db, 0, false, false⟩)).failed
      = false := by
    rw [execStmt_none_failed]
    exact hf
  unfold loadRun
  constructor
  · simp [hf2]
  · simp [hf2]

/-- C9: `transform` writes each staging snapshot immediately after
normalizing its record; when the payload at index `k` aborts the batch
(unparsable, or its record construction raises), the snapshots for
indices 0 through k-1 have already been written, in order, and remain. -/
theorem staging_written_before_failure (ps : List (Option Json)) (k : Nat)
    (items : Nat → TransformedItem)
    (hgood : ∀ j, j < k → ∃ p, ps.get? j = some (some p) ∧ transform1 p = some (items j))
    (hbad : ps.get? k = some none ∨
      ∃ p, ps.get? k = some (some p) ∧ transform1 p = none) :
    (transformList ps 0 []).1 = (List.range k).map (fun j => (j, items j)) ∧
    ∃ e, (transformList ps 0 []).2 = .error e := by
  have h := transformList_log_of_bad k ps 0 [] items hgood hbad
  refine ⟨?_, h.2⟩
  rw [h.1]
  simp [Nat.zero_add]

/-- C9 witness: one good payload, then an unparsable one; the staging log
holds exactly the snapshot of index 0. -/
theorem staging_written_before_failure_witness :
    (∀ j, j < 1 → ∃ p,
      ([some (.obj emptyFields), none] : List (Option Json)).get? j = some (some p) ∧
      transform1 p = some ((fun _ => goodItem emptyFields) j)) ∧
    (([some (.obj emptyFields), none] : List (Option Json)).get? 1 = some none ∨
      ∃ p, ([some (.obj emptyFields), none] : List (Option Json)).get? 1 = some (some p) ∧
        transform1 p = none) ∧
    ((transformList [some (.obj emptyFields), none] 0 []).1 =
        (List.range 1).map (fun j => (j, (fun _ => goodItem emptyFields) j)) ∧
      ∃ e, (transformList [some (.obj emptyFields), none] 0 []).2 = .error e) := by
  have hgood : ∀ j, j < 1 → ∃ p,
      ([some (.obj emptyFields), none] : List (Option Json)).get? j = some (some p) ∧
      transform1 p = some ((fun _ => goodItem emptyFields) j) := by
    intro j hj
    cases j with
    | zero => exact ⟨.obj emptyFields, rfl, rfl⟩
    | succ n => omega
  exact ⟨hgood, .inl rfl,
    staging_written_before_failure _ 1 _ hgood (.inl rfl)⟩

/-- C10: `transform` is deterministic — the records it returns are a
function of the payload list alone: two runs on equal payload lists agree,
whatever the ambient starting index and staging log. -/
theorem transform_deterministic (ps1 ps2 : List (Option Json)) (i1 i2 : Nat)
    (log1 log2 : List (Nat × TransformedItem)) (h : ps1 = ps2) :
    recordsOf (transformList ps1 i1 log1) = recordsOf (transformList ps2 i2 log2) := by
  subst h
  exact recordsOf_indep ps1 i1 i2 log1 log2

/-- C10 witness: the same one-payload list run from two different ambient
states. -/
theorem transform_deterministic_witness :
    ([some (.obj emptyFields)] : List (Option Json)) = [some (.obj emptyFields)] ∧
    recordsOf (transformList [some (.obj emptyFields)] 0 []) =
      recordsOf (transformList [some (.obj emptyFields)] 7 [(5, emptyItem)]) :=
  ⟨rfl, transform_deterministic [some (.obj emptyFields)] [some (.obj emptyFields)]
    0 7 [] [(5, emptyItem)] rfl⟩
